import Mathlib

/-!
Verification development for the DTD_Hydrogen real-time rendering subsystem.

Each definition is a shallow embedding of a function or state fragment of the
TypeScript source.  JavaScript `number` values are modelled as exact field
elements: as `ℚ` where the code only uses field operations and comparisons,
and as `ℝ` where the code calls `Math.sin` / `Math.pow`.  Per-frame callbacks
become explicit state-passing functions; `Math.random()` draws become oracle
parameters.
-/

namespace DTD

/-! ## Scene orchestrator pause flags (`SharedThreeScene.tsx`)

The mutable flags `contextLost` and `isPageVisible`, the event handlers wired
through `setupContextLossHandling` / `setupVisibilityHandling`, and the guard
at the top of `animate`. -/

/-- The two pause-cause flags captured by the `animate` closure. -/
structure SceneFlags where
  contextLost : Bool
  isPageVisible : Bool
deriving DecidableEq, Repr

/-- Whether one invocation of the `animate` frame callback reaches the render
call: `if (contextLost || !isPageVisible) return;` then the viewport check,
then `if (shouldSkipFrame) return;`. -/
def animateRuns (f : SceneFlags) (isInViewport shouldSkipFrame : Bool) : Bool :=
  if f.contextLost || !f.isPageVisible then false
  else if !isInViewport then false
  else if shouldSkipFrame then false
  else true

/-- `webglcontextlost` handler: sets `contextLost = true` (and cancels the
pending frame; no immediate animate call). -/
def onContextLost (f : SceneFlags) : SceneFlags × Bool :=
  ({ f with contextLost := true }, false)

/-- `webglcontextrestored` handler: clears `contextLost`, then
`if (isPageVisible) animate()`.  The boolean reports whether `animate` was
invoked immediately. -/
def onContextRestored (f : SceneFlags) : SceneFlags × Bool :=
  ({ f with contextLost := false }, f.isPageVisible)

/-- `visibilitychange` handler, hidden branch: clears `isPageVisible`. -/
def onTabHidden (f : SceneFlags) : SceneFlags × Bool :=
  ({ f with isPageVisible := false }, false)

/-- `visibilitychange` handler, visible branch: sets `isPageVisible`, then
`if (!contextLost) animate()`. -/
def onTabShown (f : SceneFlags) : SceneFlags × Bool :=
  ({ f with isPageVisible := true }, !f.contextLost)

/-! ## Scene orchestrator device-class gating (`SharedThreeScene.tsx`)

`const iceTrailEffect = !isMobile ? new IceTrailEffect(textureCache) : null;`
`const godrayPostProcessing = !isMobile ? new GodrayPostProcessing(...) : null;`
plus the ice-shader injection guard in the model-load callback and the
render-path selection at the bottom of `animate`. -/

/-- Which render path the bottom of `animate` takes. -/
inductive RenderPath where
  | postProcessed
  | direct
deriving DecidableEq, Repr

/-- The per-scene allocations whose existence depends on the device class. -/
structure SceneAllocs where
  iceTrail : Option Unit
  godray : Option Unit
deriving DecidableEq, Repr

/-- Effect construction in the scene orchestrator body. -/
def initScene (isMobile : Bool) : SceneAllocs :=
  { iceTrail := if !isMobile then some () else none
    godray := if !isMobile then some () else none }

/-- The guard `if (!isMobile && iceTrailEffect)` around
`iceTrailEffect.injectIceShader(material, iceTextures)`. -/
def injectsIceShader (isMobile : Bool) (iceTrail : Option Unit) : Bool :=
  !isMobile && iceTrail.isSome

/-- `if (godrayPostProcessing) { godray.render(...) } else { renderer.render(...) }`. -/
def renderPathOf (godray : Option Unit) : RenderPath :=
  if godray.isSome then .postProcessed else .direct

/-! ## IceButtonManager progress state machine (`IceButtonManagerClass`)

`activate` / `deactivate` flip `targetProgress`; one pass of the body of the
shared `animate` loop over a single instance advances `currentProgress`.
JavaScript numbers are modelled as `ℚ`; the literals `0.1`, `0.12`, `0.001`
are the exact rationals below. -/

/-- The progress-relevant fields of an `IceButtonInstance`. -/
structure ButtonInstance where
  targetProgress : ℚ
  currentProgress : ℚ
  isActive : Bool
deriving DecidableEq, Repr

/-- `activate(id)`: pointer-enter.  Sets `isActive` and `targetProgress = 1.0`
(and starts the shared loop); `currentProgress` is untouched. -/
def activate (b : ButtonInstance) : ButtonInstance :=
  { b with isActive := true, targetProgress := 1 }

/-- `deactivate(id)`: pointer-leave.  Sets `targetProgress = 0.0` only. -/
def deactivate (b : ButtonInstance) : ButtonInstance :=
  { b with targetProgress := 0 }

/-- One frame of the `animate` loop for one instance:
`deltaTime = Math.min(rawDelta, 0.1)`, `linearSpeed = 0.12`, then
`if (|diff| > 0.001)` move `currentProgress` toward `targetProgress` by
`deltaTime * linearSpeed`, clamping at `1.0` going up and `0.0` going down. -/
def stepProgress (b : ButtonInstance) (rawDelta : ℚ) : ButtonInstance :=
  if 1/1000 < |b.targetProgress - b.currentProgress| then
    if 0 < b.targetProgress - b.currentProgress then
      { b with currentProgress :=
          if 1 < b.currentProgress + min rawDelta (1/10) * (12/100) then 1
          else b.currentProgress + min rawDelta (1/10) * (12/100) }
    else
      { b with currentProgress :=
          if b.currentProgress - min rawDelta (1/10) * (12/100) < 0 then 0
          else b.currentProgress - min rawDelta (1/10) * (12/100) }
  else b

/-! ## Shared ice-texture singleton (`TextureLoaders`, `loadSharedIceTextures`)

Module-level state: `sharedIceTextures` (the bundle, identified here by the
allocation number of the underlying load that produced it),
`sharedIceTexturesLoading`, and the `iceTexturesCallbacks` queue.  Callbacks
are identified by numbers; an *invocation* is the pair
(callback id, bundle id it received). -/

/-- Module state of `TextureLoaders.ts` for the shared ice-texture bundle. -/
structure IceTexState where
  sharedIceTextures : Option ℕ
  sharedIceTexturesLoading : Bool
  iceTexturesCallbacks : List ℕ
  loadsTriggered : ℕ
deriving DecidableEq, Repr

/-- Initial module state: nothing loaded, nothing in flight. -/
def initIceTexState : IceTexState :=
  { sharedIceTextures := none, sharedIceTexturesLoading := false
    iceTexturesCallbacks := [], loadsTriggered := 0 }

/-- `getSharedIceTextures()`. -/
def getSharedIceTextures (s : IceTexState) : Option ℕ :=
  s.sharedIceTextures

/-- `loadSharedIceTextures(onLoaded?)`.  Returns the new state, the list of
callback invocations performed during the call (in order), and the returned
value.  Branches exactly as the source: already loaded → invoke `onLoaded`
immediately; loading in progress → queue the callback; otherwise set the
loading flag, queue the callback, run the single underlying texture load
(allocating the bundle), and notify every queued callback in order. -/
def loadSharedIceTextures (onLoaded : Option ℕ) (s : IceTexState) :
    IceTexState × List (ℕ × ℕ) × Option ℕ :=
  match s.sharedIceTextures with
  | some b => (s, (onLoaded.map fun c => (c, b)).toList, some b)
  | none =>
    if s.sharedIceTexturesLoading then
      ({ s with iceTexturesCallbacks := s.iceTexturesCallbacks ++ onLoaded.toList },
        [], none)
    else
      let b := s.loadsTriggered
      let queued := s.iceTexturesCallbacks ++ onLoaded.toList
      ({ sharedIceTextures := some b, sharedIceTexturesLoading := true
         iceTexturesCallbacks := [], loadsTriggered := s.loadsTriggered + 1 },
        queued.map fun c => (c, b), some b)

/-- A sequence of `loadSharedIceTextures` calls, each with a callback, starting
from a given state; accumulates the invocation trace. -/
def runIceTexCalls (cbs : List ℕ) (start : IceTexState × List (ℕ × ℕ)) :
    IceTexState × List (ℕ × ℕ) :=
  cbs.foldl
    (fun acc c =>
      let r := loadSharedIceTextures (some c) acc.1
      (r.1, acc.2 ++ r.2.1))
    start

/-! ## Model cache (`TextureLoaders`, `loadModel`)

`loadModel(path)` resolves to a clone of the cached canonical group, caching
the canonical (un-transformed) group on first load.  Object identity is
modelled by an allocation counter `nextId`; `clone()` allocates a fresh
object sharing `geometry` and copying `transform`.  Transform mutation is
modelled against an explicit object store keyed by object id. -/

/-- A THREE.Group as far as this contract is concerned: its identity, the
geometry/material content it references, and its own transform. -/
structure Group where
  oid : ℕ
  geometry : String
  transform : ℚ × ℚ × ℚ
deriving DecidableEq, Repr

/-- `group.clone()`: a fresh object with the same geometry/materials and the
same transform values. -/
def cloneGroup (g : Group) (freshId : ℕ) : Group :=
  { g with oid := freshId }

/-- Module state of the model cache. -/
structure ModelCacheState where
  modelCache : String → Option Group
  nextId : ℕ

/-- Initial model-cache state: empty cache. -/
def initModelCacheState : ModelCacheState :=
  { modelCache := fun _ => none, nextId := 0 }

/-- One resolved `loadModel(path)` call.  Cache hit: return a clone of the
cached canonical.  Cache miss: load the model for `path` (a fresh group whose
geometry is determined by the asset at `path`, with identity transform),
cache the original, and resolve with a clone. -/
def loadModel (path : String) (s : ModelCacheState) : ModelCacheState × Group :=
  match s.modelCache path with
  | some g => ({ s with nextId := s.nextId + 1 }, cloneGroup g s.nextId)
  | none =>
    let model : Group := { oid := s.nextId, geometry := path, transform := (0, 0, 0) }
    ({ modelCache := fun p => if p = path then some model else s.modelCache p
       nextId := s.nextId + 2 },
      cloneGroup model (s.nextId + 1))

/-- Mutating one object's transform in the object store. -/
def setTransform (store : ℕ → ℚ × ℚ × ℚ) (oid : ℕ) (t : ℚ × ℚ × ℚ) :
    ℕ → ℚ × ℚ × ℚ :=
  Function.update store oid t

/-! ## Ice trail effect (`IceTrailEffect.ts`)

`trailData` is a `Float32Array` of 64 slots of `(u, v, age, intensity)`, which
is also the backing store of the 1×64 RGBA float `DataTexture`; `trailMeta`
holds the per-point `(fadeSpeed, maxAge)` draws.  `update` first ages every
live slot, then possibly inserts a new point at the ring-buffer cursor.
JavaScript numbers are modelled as `ℝ` (the decay uses `Math.sin`/`Math.pow`);
the `Math.random()` draws of one call are oracle fields of `UpdateInput`. -/

/-- `ICE_CONFIG.maxTrailPoints` from `constants.ts`. -/
def maxTrailPoints : ℕ := 64

/-- `ICE_CONFIG.trailInterval` from `constants.ts`. -/
noncomputable def trailInterval : ℝ := 0.025

/-- One slot of `trailData`: `(u, v, age, intensity)`. -/
structure TrailPoint where
  u : ℝ
  v : ℝ
  age : ℝ
  intensity : ℝ

/-- One slot of `trailMeta`: `(fadeSpeed, maxAge)`. -/
structure TrailMeta where
  fadeSpeed : ℝ
  maxAge : ℝ

/-- The organic fade curve of `update`:
`Math.pow(normalizedAge, 1.5 + Math.sin(age * 3.0) * 0.3)` with
`normalizedAge = age / maxAge`. -/
noncomputable def fadeCurve (age maxAge : ℝ) : ℝ :=
  (age / maxAge) ^ (1.5 + Real.sin (age * 3.0) * 0.3)

/-- The per-slot aging step of `update` (lines 85–107): live slots
(`intensity > 0`) have their age increased by `deltaTime`, their intensity
recomputed as `Math.max(0, 1.0 - fadeCurve)`, and, when the 0.2%-chance
"melt" branch fires (oracle `melt`), multiplied by `0.7`; dead slots are
untouched. -/
noncomputable def agePoint (p : TrailPoint) (m : TrailMeta) (deltaTime : ℝ)
    (melt : Bool) : TrailPoint :=
  if 0 < p.intensity then
    let age := p.age + deltaTime
    let base := max 0 (1.0 - fadeCurve age m.maxAge)
    { p with age := age, intensity := if melt then base * 0.7 else base }
  else p

/-- The mutable state of an `IceTrailEffect` touched by `update`. -/
structure TrailState where
  trailData : Fin 64 → TrailPoint
  trailMeta : Fin 64 → TrailMeta
  trailIndex : Fin 64
  trailCount : ℕ
  lastTrailTime : ℝ

/-- Constructor state: zero-initialised `Float32Array`s, cursor and count 0. -/
noncomputable def initTrailState : TrailState :=
  { trailData := fun _ => ⟨0, 0, 0, 0⟩
    trailMeta := fun _ => ⟨0, 0⟩
    trailIndex := ⟨0, by norm_num⟩
    trailCount := 0
    lastTrailTime := 0 }

/-- The inputs of one `update(deltaTime, elapsedTime, intersects, isScrolling)`
call.  `hitUv` is `intersects[0].uv` when `intersects.length > 0` and the hit
carries a UV; `melt` is the per-slot outcome of `Math.random() < 0.002`;
`fadeRand`/`ageRand` are the `Math.random()` draws for a new point's
parameters. -/
structure UpdateInput where
  deltaTime : ℝ
  elapsedTime : ℝ
  hitUv : Option (ℝ × ℝ)
  isScrolling : Bool
  melt : Fin 64 → Bool
  fadeRand : ℝ
  ageRand : ℝ

/-- Phase 1 of `update`: age every slot. -/
noncomputable def decayPhase (s : TrailState) (inp : UpdateInput) : TrailState :=
  { s with
    trailData := fun i => agePoint (s.trailData i) (s.trailMeta i) inp.deltaTime (inp.melt i) }

/-- The circular-buffer write of `update` (lines 114–131): write the new point
at the cursor slot with `age = 0, intensity = 1.0`, draw
`fadeSpeed ∈ 0.1 + rand·0.2` and `maxAge ∈ 2.0 + rand·3.0`, advance the
cursor modulo `maxTrailPoints`, raise the live count capped at
`maxTrailPoints`, and remember the insertion time. -/
noncomputable def insertTrail (s : TrailState) (hitUv : ℝ × ℝ)
    (fadeRand ageRand elapsedTime : ℝ) : TrailState :=
  { s with
    trailData := Function.update s.trailData s.trailIndex
      ⟨hitUv.1, hitUv.2, 0, 1.0⟩
    trailMeta := Function.update s.trailMeta s.trailIndex
      ⟨0.1 + fadeRand * 0.2, 2.0 + ageRand * 3.0⟩
    trailIndex := ⟨((s.trailIndex : ℕ) + 1) % maxTrailPoints, Nat.mod_lt _ (by norm_num [maxTrailPoints])⟩
    trailCount := min (s.trailCount + 1) maxTrailPoints
    lastTrailTime := elapsedTime }

/-- Phase 2 of `update`: `if (!isScrolling && intersects.length > 0 &&
intersects[0].uv && elapsedTime - lastTrailTime > trailInterval)` insert. -/
noncomputable def insertPhase (s : TrailState) (inp : UpdateInput) : TrailState :=
  match inp.hitUv with
  | none => s
  | some uv =>
    if inp.isScrolling = false ∧ trailInterval < inp.elapsedTime - s.lastTrailTime then
      insertTrail s uv inp.fadeRand inp.ageRand inp.elapsedTime
    else s

/-- `IceTrailEffect.update`: aging phase, then conditional insertion.  (The
call then marks the data texture for re-upload and pushes
`uTrailCount = trailCount` and `uTime = elapsedTime`; the texture's texels are
`trailData` itself.) -/
noncomputable def updateTrail (s : TrailState) (inp : UpdateInput) : TrailState :=
  insertPhase (decayPhase s inp) inp

/-- The injected fragment loop (lines 216–222): `for (i = 0; i < 64; i++)`
with `if (i >= uTrailCount) break;`, sampling texel `i` of the trail data
texture — i.e. it reads the `(u, v)` of slots `0, 1, …, uTrailCount − 1` in
that order, where `uTrailCount` is the effect's `trailCount`. -/
noncomputable def shaderVisit (s : TrailState) : List (ℝ × ℝ) :=
  (List.ofFn fun i : Fin 64 => ((s.trailData i).u, (s.trailData i).v)).take s.trailCount

/-- A pure sequence of ring-buffer insertions starting from the constructor
state (the cursor/slot bookkeeping of `update` is independent of the random
draws and of the insertion clock, which are fixed here). -/
noncomputable def insertSeq (uvs : List (ℝ × ℝ)) : TrailState :=
  uvs.foldl (fun s uv => insertTrail s uv 0 0 0) initTrailState

/-! ### Concrete states used to instantiate/refute the trail properties -/

/-- Per-point parameters `fadeSpeed = 0.15`, `maxAge = 5`: the draw obtained
from `0.1 + 0.25·0.2` and `2.0 + 1·3.0`, i.e. within the random ranges of
`update`. -/
noncomputable def cexMeta : TrailMeta := ⟨0.15, 5⟩

/-- A live trail point of age `1.72`. -/
noncomputable def cexPoint : TrailPoint := ⟨0.5, 0.5, 1.72, 1⟩

/-- A trail state holding the live point `cexPoint` in every slot. -/
noncomputable def cexState : TrailState :=
  { trailData := fun _ => cexPoint
    trailMeta := fun _ => cexMeta
    trailIndex := ⟨0, by norm_num⟩
    trailCount := 1
    lastTrailTime := 0 }

/-- An `update` call with `deltaTime = 0.23`, no intersection, not scrolling,
and the melt branch not firing for any slot. -/
noncomputable def quietInput : UpdateInput :=
  { deltaTime := 0.23, elapsedTime := 0, hitUv := none, isScrolling := false
    melt := fun _ => false, fadeRand := 0, ageRand := 0 }

/-- A full ring buffer (64 live points) whose cursor slot 0 holds a *young*
point (age 1) while slot 1 holds an *older* point (age 5). -/
noncomputable def fullState : TrailState :=
  { trailData := fun j => if (j : ℕ) = 0 then ⟨0.2, 0.2, 1, 1⟩ else ⟨0.8, 0.8, 5, 1⟩
    trailMeta := fun _ => cexMeta
    trailIndex := ⟨0, by norm_num⟩
    trailCount := 64
    lastTrailTime := 0 }

/-- An `update` call carrying a fresh intersection UV, past the 25 ms
insertion interval, while not scrolling. -/
noncomputable def hitInput : UpdateInput :=
  { deltaTime := 0.016, elapsedTime := 1, hitUv := some (0.5, 0.5)
    isScrolling := false, melt := fun _ => false, fadeRand := 0, ageRand := 0 }

/-- 65 insertions with pairwise distinct `u` coordinates `0, 1, …, 64`. -/
noncomputable def uvSeq65 : List (ℝ × ℝ) :=
  (List.range 65).map fun j : ℕ => ((j : ℝ), (0 : ℝ))

end DTD

namespace DTD

/-! ## C4: pause causes combine, both must clear to resume -/

/-- C4: the per-frame callback performs no render while either pause cause
holds (context lost, or tab hidden); the context-restore handler re-kicks the
loop only if the page is visible and the tab-shown handler only if the
context is not lost; and from the state where both causes are active,
clearing exactly one cause (either one) still leaves every frame render-free. -/
theorem scene_pause_resume_and :
    (∀ (b vp sk : Bool),
      animateRuns { contextLost := true, isPageVisible := b } vp sk = false ∧
      animateRuns { contextLost := b, isPageVisible := false } vp sk = false) ∧
    (∀ f : SceneFlags,
      (onContextRestored f).2 = f.isPageVisible ∧ (onTabShown f).2 = !f.contextLost) ∧
    ((onContextRestored ⟨true, false⟩).1 = ⟨false, false⟩ ∧
      ∀ vp sk : Bool, animateRuns (onContextRestored ⟨true, false⟩).1 vp sk = false) ∧
    ((onTabShown ⟨true, false⟩).1 = ⟨true, true⟩ ∧
      ∀ vp sk : Bool, animateRuns (onTabShown ⟨true, false⟩).1 vp sk = false) := by
  refine ⟨fun b vp sk => ?_, fun f => ⟨rfl, rfl⟩, ⟨rfl, fun vp sk => ?_⟩,
    ⟨rfl, fun vp sk => ?_⟩⟩
  · cases b <;> cases vp <;> cases sk <;> exact ⟨rfl, rfl⟩
  · cases vp <;> cases sk <;> rfl
  · cases vp <;> cases sk <;> rfl

/-! ## C7: mobile device class allocates no post-processing and no ice trail -/

/-- C7: with device class mobile, the scene orchestrator allocates neither a
godray post-processing pipeline nor an ice-trail effect, injects no ice
shader into any material, and renders single-pass (direct render path). -/
theorem mobile_no_postfx_no_ice :
    (initScene true).godray = none ∧
    (initScene true).iceTrail = none ∧
    injectsIceShader true (initScene true).iceTrail = false ∧
    renderPathOf (initScene true).godray = RenderPath.direct := by
  refine ⟨rfl, rfl, rfl, rfl⟩

/-! ## Button progress lemmas (C8, C10) -/

/-- One frame keeps `currentProgress` inside `[0, 1]`. -/
lemma stepProgress_mem_Icc (b : ButtonInstance) (dt : ℚ)
    (h0 : 0 ≤ b.currentProgress) (h1 : b.currentProgress ≤ 1) (hdt : 0 ≤ dt) :
    0 ≤ (stepProgress b dt).currentProgress ∧ (stepProgress b dt).currentProgress ≤ 1 := by
  have hd0 : (0 : ℚ) ≤ min dt (1/10) := le_min hdt (by norm_num)
  unfold stepProgress
  split_ifs with habs hpos hup hdown
  · exact ⟨by norm_num, by norm_num⟩
  · constructor <;> simp only [] <;> nlinarith
  · exact ⟨le_refl 0, by norm_num⟩
  · constructor <;> simp only [] <;> nlinarith
  · exact ⟨h0, h1⟩

/-- One frame moves `currentProgress` by at most
`min rawDelta 0.1 * 0.12` in absolute value. -/
lemma stepProgress_move_bound (b : ButtonInstance) (dt : ℚ)
    (h0 : 0 ≤ b.currentProgress) (h1 : b.currentProgress ≤ 1) (hdt : 0 ≤ dt) :
    |(stepProgress b dt).currentProgress - b.currentProgress| ≤ min dt (1/10) * (12/100) := by
  have hd0 : (0 : ℚ) ≤ min dt (1/10) := le_min hdt (by norm_num)
  unfold stepProgress
  split_ifs with habs hpos hup hdown <;> try dsimp only
  · rw [abs_of_nonneg (by linarith)]
    linarith
  · rw [abs_of_nonneg (by linarith)]
    linarith
  · rw [abs_of_nonpos (by linarith)]
    linarith
  · rw [abs_of_nonpos (by linarith)]
    linarith
  · simpa using by positivity

/-- If the target is more than the 0.001 deadband above the current value, the
frame moves the progress upward (never past it from below in a jump), and
symmetrically downward; inside the deadband nothing moves. -/
lemma stepProgress_direction (b : ButtonInstance) (dt : ℚ)
    (h0 : 0 ≤ b.currentProgress) (h1 : b.currentProgress ≤ 1) (hdt : 0 ≤ dt) :
    (1/1000 < b.targetProgress - b.currentProgress →
      b.currentProgress ≤ (stepProgress b dt).currentProgress) ∧
    (1/1000 < b.currentProgress - b.targetProgress →
      (stepProgress b dt).currentProgress ≤ b.currentProgress) ∧
    (|b.targetProgress - b.currentProgress| ≤ 1/1000 →
      (stepProgress b dt).currentProgress = b.currentProgress) := by
  have hd0 : (0 : ℚ) ≤ min dt (1/10) := le_min hdt (by norm_num)
  unfold stepProgress
  split_ifs with habs hpos hup hdown
  · exact ⟨fun _ => h1, fun h => by nlinarith, fun h => by nlinarith [abs_nonneg (b.targetProgress - b.currentProgress)]⟩
  · exact ⟨fun _ => by nlinarith, fun h => by nlinarith, fun h => absurd h (not_le.2 habs)⟩
  · exact ⟨fun h => by nlinarith, fun _ => h0, fun h => absurd h (not_le.2 habs)⟩
  · exact ⟨fun h => by nlinarith, fun _ => by nlinarith, fun h => absurd h (not_le.2 habs)⟩
  · exact ⟨fun _ => le_refl _, fun _ => le_refl _, fun _ => rfl⟩

/-! ## C8: button progress stays in [0,1], moves linearly, reverses smoothly -/

/-- C8: for any button instance with `currentProgress ∈ [0,1]` and any
nonnegative frame delta, one frame of the shared loop keeps the progress in
`[0,1]`, changes it by at most the fixed rate times the (clamped) delta, moves
it toward the target whenever the target is outside the 0.001 deadband and
freezes it inside the deadband; and the pointer-enter and pointer-leave handlers change
only `targetProgress`, so a leave before the rise completes makes progress
reverse from its current value with no jump and no overshoot past `[0,1]`. -/
theorem button_progress_linear (b : ButtonInstance) (dt : ℚ)
    (h0 : 0 ≤ b.currentProgress) (h1 : b.currentProgress ≤ 1) (hdt : 0 ≤ dt) :
    (0 ≤ (stepProgress b dt).currentProgress ∧
      (stepProgress b dt).currentProgress ≤ 1) ∧
    |(stepProgress b dt).currentProgress - b.currentProgress| ≤ min dt (1/10) * (12/100) ∧
    (1/1000 < b.targetProgress - b.currentProgress →
      b.currentProgress ≤ (stepProgress b dt).currentProgress) ∧
    (1/1000 < b.currentProgress - b.targetProgress →
      (stepProgress b dt).currentProgress ≤ b.currentProgress) ∧
    (|b.targetProgress - b.currentProgress| ≤ 1/1000 →
      (stepProgress b dt).currentProgress = b.currentProgress) ∧
    (activate b).currentProgress = b.currentProgress ∧
    (deactivate b).currentProgress = b.currentProgress := by
  obtain ⟨d1, d2, d3⟩ := stepProgress_direction b dt h0 h1 hdt
  exact ⟨stepProgress_mem_Icc b dt h0 h1 hdt,
    stepProgress_move_bound b dt h0 h1 hdt, d1, d2, d3, rfl, rfl⟩

/-- Witness for C8 at `target = 1`, `current = 1/2`, `rawDelta = 1/60`. -/
theorem button_progress_linear_witness :
    (0 : ℚ) ≤ 1/2 ∧ (1/2 : ℚ) ≤ 1 ∧ (0 : ℚ) ≤ 1/60 ∧
    ((0 ≤ (stepProgress ⟨1, 1/2, true⟩ (1/60)).currentProgress ∧
      (stepProgress ⟨1, 1/2, true⟩ (1/60)).currentProgress ≤ 1) ∧
    |(stepProgress ⟨1, 1/2, true⟩ (1/60)).currentProgress - (1/2 : ℚ)| ≤
        min (1/60) (1/10) * (12/100) ∧
    ((1/1000 : ℚ) < 1 - 1/2 →
      (1/2 : ℚ) ≤ (stepProgress ⟨1, 1/2, true⟩ (1/60)).currentProgress) ∧
    ((1/1000 : ℚ) < 1/2 - 1 →
      (stepProgress ⟨1, 1/2, true⟩ (1/60)).currentProgress ≤ 1/2) ∧
    (|(1 : ℚ) - 1/2| ≤ 1/1000 →
      (stepProgress ⟨1, 1/2, true⟩ (1/60)).currentProgress = 1/2) ∧
    (activate ⟨1, 1/2, true⟩).currentProgress = 1/2 ∧
    (deactivate ⟨1, 1/2, true⟩).currentProgress = 1/2) :=
  ⟨by norm_num, by norm_num, by norm_num,
    button_progress_linear ⟨1, 1/2, true⟩ (1/60) (by norm_num) (by norm_num) (by norm_num)⟩

/-! ## C10: per-frame progress change is bounded by 0.1 · 0.12 = 0.012 -/

/-- C10: the raw frame delta is clamped to `0.1` before integration, so a
single frame changes `currentProgress` by at most `0.1 · 0.12 = 0.012` — for
*every* nonnegative raw delta, in particular after an arbitrarily long
suspension of the loop. -/
theorem button_progress_no_snap (b : ButtonInstance) (dt : ℚ)
    (h0 : 0 ≤ b.currentProgress) (h1 : b.currentProgress ≤ 1) (hdt : 0 ≤ dt) :
    |(stepProgress b dt).currentProgress - b.currentProgress| ≤ 12/1000 := by
  have h := stepProgress_move_bound b dt h0 h1 hdt
  have : min dt (1/10) * (12/100) ≤ (12 : ℚ)/1000 := by
    have := min_le_right dt (1/10 : ℚ)
    nlinarith
  linarith

/-- Witness for C10 with a 1000-second suspension of the loop. -/
theorem button_progress_no_snap_witness :
    (0 : ℚ) ≤ 0 ∧ (0 : ℚ) ≤ 1 ∧ (0 : ℚ) ≤ 1000 ∧
    |(stepProgress ⟨1, 0, true⟩ 1000).currentProgress - (0 : ℚ)| ≤ 12/1000 :=
  ⟨by norm_num, by norm_num, by norm_num,
    button_progress_no_snap ⟨1, 0, true⟩ 1000 (by norm_num) (by norm_num) (by norm_num)⟩

/-! ## Shared ice-texture singleton lemmas (C3) -/

/-- Once the bundle exists, further calls neither change the state nor touch
the queue: they only invoke the passed callback with the existing bundle. -/
lemma runIceTexCalls_loaded (cbs : List ℕ) (s : IceTexState) (b : ℕ)
    (tr : List (ℕ × ℕ)) (hb : s.sharedIceTextures = some b) :
    runIceTexCalls cbs (s, tr) = (s, tr ++ cbs.map fun c => (c, b)) := by
  induction cbs generalizing tr with
  | nil => simp [runIceTexCalls]
  | cons c cs ih =>
    have hstep : loadSharedIceTextures (some c) s = (s, [(c, b)], some b) := by
      unfold loadSharedIceTextures
      rw [hb]
      rfl
    unfold runIceTexCalls at ih ⊢
    simp only [List.foldl_cons, hstep]
    rw [ih (tr ++ [(c, b)])]
    simp

/-! ## C3: N callers, one underlying load, callbacks in order, same bundle -/

/-- C3: starting from the unloaded module state, any positive number of
`loadSharedIceTextures` calls with callbacks triggers the underlying
5-texture load exactly once; every registered callback is invoked exactly
once, in registration order, and each receives the single bundle allocated by
that one load (id 0); any later call returns that same bundle immediately,
invoking its own callback with it and leaving the state untouched. -/
theorem shared_ice_textures_single_load (c : ℕ) (cs : List ℕ) :
    (runIceTexCalls (c :: cs) (initIceTexState, [])).1.loadsTriggered = 1 ∧
    (runIceTexCalls (c :: cs) (initIceTexState, [])).1.sharedIceTextures = some 0 ∧
    (runIceTexCalls (c :: cs) (initIceTexState, [])).2 =
      (c :: cs).map (fun x => (x, 0)) ∧
    (∀ c2 : ℕ, loadSharedIceTextures (some c2)
        (runIceTexCalls (c :: cs) (initIceTexState, [])).1 =
      ((runIceTexCalls (c :: cs) (initIceTexState, [])).1, [(c2, 0)], some 0)) := by
  have hfirst : loadSharedIceTextures (some c) initIceTexState =
      (⟨some 0, true, [], 1⟩, [(c, 0)], some 0) := by
    rfl
  have hrun : runIceTexCalls (c :: cs) (initIceTexState, []) =
      ((⟨some 0, true, [], 1⟩ : IceTexState), [(c, 0)] ++ cs.map fun x => (x, 0)) := by
    unfold runIceTexCalls
    simp only [List.foldl_cons, hfirst]
    exact runIceTexCalls_loaded cs _ 0 _ rfl
  rw [hrun]
  refine ⟨rfl, rfl, by simp, fun c2 => ?_⟩
  rfl

/-! ## C9: loadModel returns independent clones, canonical stays private -/

/-- C9: two resolved `loadModel` calls for the same path return two distinct
objects (different identities) that are structurally equal (same
geometry/materials, same transform); the cached canonical group is a third
object that is handed to neither caller and is unchanged by the second call;
and because the two returned identities differ, mutating the transform of one
returned group leaves the other's transform untouched. -/
theorem loadModel_clone_semantics (path : String) :
    (loadModel path initModelCacheState).2.oid ≠
      (loadModel path (loadModel path initModelCacheState).1).2.oid ∧
    (loadModel path initModelCacheState).2.geometry =
      (loadModel path (loadModel path initModelCacheState).1).2.geometry ∧
    (loadModel path initModelCacheState).2.transform =
      (loadModel path (loadModel path initModelCacheState).1).2.transform ∧
    (loadModel path initModelCacheState).1.modelCache path =
      some ⟨0, path, (0, 0, 0)⟩ ∧
    (loadModel path (loadModel path initModelCacheState).1).1.modelCache path =
      (loadModel path initModelCacheState).1.modelCache path ∧
    (0 : ℕ) ≠ (loadModel path initModelCacheState).2.oid ∧
    (0 : ℕ) ≠ (loadModel path (loadModel path initModelCacheState).1).2.oid ∧
    (∀ (store : ℕ → ℚ × ℚ × ℚ) (t : ℚ × ℚ × ℚ),
      setTransform store (loadModel path initModelCacheState).2.oid t
          ((loadModel path (loadModel path initModelCacheState).1).2.oid) =
        store ((loadModel path (loadModel path initModelCacheState).1).2.oid)) := by
  have h1 : loadModel path initModelCacheState =
      ({ modelCache := fun p => if p = path then some ⟨0, path, (0, 0, 0)⟩ else none
         nextId := 2 }, ⟨1, path, (0, 0, 0)⟩) := by
    unfold loadModel initModelCacheState cloneGroup
    rfl
  have h2 : loadModel path
      ({ modelCache := fun p => if p = path then some ⟨0, path, (0, 0, 0)⟩ else none
         nextId := 2 } : ModelCacheState) =
      ({ modelCache := fun p => if p = path then some ⟨0, path, (0, 0, 0)⟩ else none
         nextId := 3 }, ⟨2, path, (0, 0, 0)⟩) := by
    unfold loadModel cloneGroup
    simp
  rw [h1]
  simp only [h2]
  refine ⟨by norm_num, by trivial, by trivial, by simp, by trivial, by norm_num,
    by norm_num, fun store t => ?_⟩
  unfold setTransform
  exact Function.update_noteq (show (2 : ℕ) ≠ 1 by norm_num) t store

/-- Witness for C9 at the hero model path. -/
theorem loadModel_clone_semantics_witness :
    (loadModel "/assets/dtd_logo7.glb" initModelCacheState).2.oid ≠
      (loadModel "/assets/dtd_logo7.glb"
        (loadModel "/assets/dtd_logo7.glb" initModelCacheState).1).2.oid ∧
    (loadModel "/assets/dtd_logo7.glb" initModelCacheState).2.geometry =
      (loadModel "/assets/dtd_logo7.glb"
        (loadModel "/assets/dtd_logo7.glb" initModelCacheState).1).2.geometry :=
  ⟨(loadModel_clone_semantics "/assets/dtd_logo7.glb").1,
    (loadModel_clone_semantics "/assets/dtd_logo7.glb").2.1⟩

/-! ## Trail ring-buffer lemmas (C2) -/

/-- `update` never raises the live count past 64. -/
lemma updateTrail_count_le (s : TrailState) (inp : UpdateInput)
    (h : s.trailCount ≤ 64) : (updateTrail s inp).trailCount ≤ 64 := by
  unfold updateTrail insertPhase
  rcases hv : inp.hitUv with _ | uv
  · exact h
  · split_ifs with hc
    · simp [insertTrail, decayPhase, maxTrailPoints]
    · exact h

/-- When the insertion condition fires, `update` is the aging phase followed
by the circular-buffer write. -/
lemma updateTrail_insert_eq (s : TrailState) (inp : UpdateInput) (uv : ℝ × ℝ)
    (huv : inp.hitUv = some uv) (hscroll : inp.isScrolling = false)
    (htime : trailInterval < inp.elapsedTime - s.lastTrailTime) :
    updateTrail s inp =
      insertTrail (decayPhase s inp) uv inp.fadeRand inp.ageRand inp.elapsedTime := by
  unfold updateTrail insertPhase
  rw [huv]
  exact if_pos ⟨hscroll, htime⟩

/-! ## C2: capacity 64, cursor-slot overwrite when full -/

/-- C2: over every sequence of `update` calls from the constructor state the
live count never exceeds 64; when an insertion fires while 64 points are
live, the new point is written into the slot at the write cursor (mod 64),
the cursor advances by one mod 64, and the count stays 64; and the overwritten
slot need not hold an oldest-by-age point (a full state exists whose cursor
slot is strictly younger than another slot). -/
theorem trail_ring_buffer_capacity :
    (∀ inputs : List UpdateInput,
      (inputs.foldl updateTrail initTrailState).trailCount ≤ 64) ∧
    (∀ (s : TrailState) (inp : UpdateInput) (uv : ℝ × ℝ),
      s.trailCount = 64 → inp.hitUv = some uv → inp.isScrolling = false →
      trailInterval < inp.elapsedTime - s.lastTrailTime →
      ((updateTrail s inp).trailData s.trailIndex).u = uv.1 ∧
      ((updateTrail s inp).trailData s.trailIndex).v = uv.2 ∧
      ((updateTrail s inp).trailData s.trailIndex).intensity = 1 ∧
      ((updateTrail s inp).trailIndex : ℕ) = ((s.trailIndex : ℕ) + 1) % 64 ∧
      (updateTrail s inp).trailCount = 64) ∧
    (∃ (s : TrailState) (inp : UpdateInput) (uv : ℝ × ℝ) (j : Fin 64),
      s.trailCount = 64 ∧ inp.hitUv = some uv ∧ inp.isScrolling = false ∧
      trailInterval < inp.elapsedTime - s.lastTrailTime ∧
      (s.trailData s.trailIndex).age < (s.trailData j).age) := by
  refine ⟨?_, ?_, ?_⟩
  · intro inputs
    have : ∀ (l : List UpdateInput) (s : TrailState), s.trailCount ≤ 64 →
        (l.foldl updateTrail s).trailCount ≤ 64 := by
      intro l
      induction l with
      | nil => intro s h; simpa using h
      | cons i is ih =>
        intro s h
        simpa [List.foldl_cons] using ih _ (updateTrail_count_le s i h)
    exact this inputs initTrailState (by simp [initTrailState])
  · intro s inp uv hcount huv hscroll htime
    rw [updateTrail_insert_eq s inp uv huv hscroll htime]
    have hidx : (decayPhase s inp).trailIndex = s.trailIndex := rfl
    refine ⟨?_, ?_, ?_, ?_, ?_⟩
    · simp [insertTrail, hidx, Function.update_same]
    · simp [insertTrail, hidx, Function.update_same]
    · simp only [insertTrail, hidx, Function.update_same]
      norm_num
    · simp [insertTrail, hidx, maxTrailPoints, decayPhase]
    · simp [insertTrail, decayPhase, hcount, maxTrailPoints]
  · refine ⟨fullState, hitInput, (0.5, 0.5), ⟨1, by norm_num⟩, rfl, rfl, rfl, ?_, ?_⟩
    · show trailInterval < (1 : ℝ) - 0
      unfold trailInterval
      norm_num
    · show (fullState.trailData ⟨0, by norm_num⟩).age < (fullState.trailData ⟨1, by norm_num⟩).age
      unfold fullState
      norm_num

/-! ## Ring-buffer/shader round-trip lemmas (C6) -/

/-- Unfolding one appended insertion. -/
lemma insertSeq_concat (l : List (ℝ × ℝ)) (q : ℝ × ℝ) :
    insertSeq (l ++ [q]) = insertTrail (insertSeq l) q 0 0 0 := by
  unfold insertSeq
  rw [List.foldl_append]
  rfl

/-- The live count after a sequence of insertions. -/
lemma insertSeq_count (uvs : List (ℝ × ℝ)) :
    (insertSeq uvs).trailCount = min uvs.length 64 := by
  induction uvs using List.reverseRecOn with
  | nil => rfl
  | append_singleton l q ih =>
    rw [insertSeq_concat]
    show min ((insertSeq l).trailCount + 1) maxTrailPoints = _
    rw [ih]
    simp only [maxTrailPoints, List.length_append, List.length_singleton]
    omega

/-- After at most 64 insertions there is no wraparound: the count is the
number of insertions, the cursor sits at `length mod 64`, and slot `i` holds
the `i`-th inserted point verbatim. -/
lemma insertSeq_spec (uvs : List (ℝ × ℝ)) (h : uvs.length ≤ 64) :
    (insertSeq uvs).trailCount = uvs.length ∧
    ((insertSeq uvs).trailIndex : ℕ) = uvs.length % 64 ∧
    ∀ (i : Fin 64) (hi : (i : ℕ) < uvs.length),
      (insertSeq uvs).trailData i =
        ⟨(uvs.get ⟨i, hi⟩).1, (uvs.get ⟨i, hi⟩).2, 0, 1.0⟩ := by
  induction uvs using List.reverseRecOn with
  | nil =>
    exact ⟨rfl, rfl, fun i hi => absurd hi (by simp)⟩
  | append_singleton l q ih =>
    have hlen : l.length + 1 ≤ 64 := by simpa using h
    have hl63 : l.length < 64 := by omega
    obtain ⟨hc, hx, hdata⟩ := ih (by omega)
    have hidx : (insertSeq l).trailIndex = ⟨l.length, hl63⟩ := by
      apply Fin.ext
      rw [hx]
      exact Nat.mod_eq_of_lt hl63
    rw [insertSeq_concat]
    refine ⟨?_, ?_, ?_⟩
    · show min ((insertSeq l).trailCount + 1) maxTrailPoints = _
      rw [hc]
      simp only [maxTrailPoints, List.length_append, List.length_singleton]
      omega
    · show (((insertSeq l).trailIndex : ℕ) + 1) % maxTrailPoints = (l ++ [q]).length % 64
      rw [hidx]
      simp [maxTrailPoints]
    · intro i hi
      show Function.update (insertSeq l).trailData (insertSeq l).trailIndex
        ⟨q.1, q.2, 0, 1.0⟩ i = _
      rw [hidx]
      rcases Nat.lt_or_ge (i : ℕ) l.length with hlt | hge
      · have hne : i ≠ ⟨l.length, hl63⟩ := by
          intro hcon
          rw [hcon] at hlt
          exact absurd hlt (by simp)
        rw [Function.update_noteq hne]
        rw [hdata i hlt]
        have : (l ++ [q]).get ⟨(i : ℕ), hi⟩ = l.get ⟨(i : ℕ), hlt⟩ := by
          simp [List.getElem_append_left hlt]
        rw [this]
      · have hieq : (i : ℕ) = l.length := by
          have := i.isLt
          simp only [List.length_append, List.length_singleton] at hi
          omega
        have hfin : i = ⟨l.length, hl63⟩ := Fin.ext hieq
        have hq : (l ++ [q]).get ⟨(i : ℕ), hi⟩ = q := by
          simp [hieq]
        rw [Function.update_apply, if_pos hfin, hq]

/-- Round trip without wraparound: the shader loop replays the insertions. -/
lemma shaderVisit_insertSeq (uvs : List (ℝ × ℝ)) (h : uvs.length ≤ 64) :
    shaderVisit (insertSeq uvs) = uvs := by
  obtain ⟨hc, _, hdata⟩ := insertSeq_spec uvs h
  unfold shaderVisit
  rw [hc]
  apply List.ext_getElem
  · simp [h]
  · intro n h1 h2
    have hn : n < uvs.length := h2
    have hn64 : n < 64 := by omega
    have htake := List.getElem?_take_of_lt
      (l := List.ofFn fun i : Fin 64 => ((( insertSeq uvs).trailData i).u, ((insertSeq uvs).trailData i).v))
      (n := uvs.length) (m := n) hn
    have hlofn : n < (List.ofFn fun i : Fin 64 =>
        (((insertSeq uvs).trailData i).u, ((insertSeq uvs).trailData i).v)).length := by
      simpa using hn64
    have hslot := hdata ⟨n, hn64⟩ hn
    rw [List.getElem_take, List.getElem_ofFn]
    show (((insertSeq uvs).trailData ⟨n, hn64⟩).u,
      ((insertSeq uvs).trailData ⟨n, hn64⟩).v) = uvs.get ⟨n, hn⟩
    rw [hslot]

/-! ## C6: shader loop visits liveCount slots; insertion order only pre-wrap -/

/-- C6 (amended): encoding the slots into the 1×64 data texture and running
the injected shader loop visits exactly `liveCount` (= `uTrailCount`) texels,
and — as long as at most 64 points were ever inserted — those texels are the
inserted points in insertion order starting from index 0.  (After wraparound
the loop still visits `liveCount = 64` texels but in slot order, a rotation of
insertion order: see the counterexample.) -/
theorem shader_trail_roundtrip :
    (∀ uvs : List (ℝ × ℝ),
      (shaderVisit (insertSeq uvs)).length = (insertSeq uvs).trailCount) ∧
    (∀ uvs : List (ℝ × ℝ), uvs.length ≤ 64 →
      shaderVisit (insertSeq uvs) = uvs) := by
  constructor
  · intro uvs
    have h64 : (insertSeq uvs).trailCount ≤ 64 := by
      rw [insertSeq_count]; omega
    unfold shaderVisit
    rw [List.length_take, List.length_ofFn]
    exact min_eq_left h64
  · exact shaderVisit_insertSeq

/-- Witness for C6 with two insertions. -/
theorem shader_trail_roundtrip_witness :
    ([((1 : ℝ), (2 : ℝ)), ((3 : ℝ), (4 : ℝ))] : List (ℝ × ℝ)).length ≤ 64 ∧
    (shaderVisit (insertSeq [((1 : ℝ), (2 : ℝ)), ((3 : ℝ), (4 : ℝ))])).length =
      (insertSeq [((1 : ℝ), (2 : ℝ)), ((3 : ℝ), (4 : ℝ))]).trailCount ∧
    shaderVisit (insertSeq [((1 : ℝ), (2 : ℝ)), ((3 : ℝ), (4 : ℝ))]) =
      [((1 : ℝ), (2 : ℝ)), ((3 : ℝ), (4 : ℝ))] :=
  ⟨by norm_num,
    shader_trail_roundtrip.1 [((1 : ℝ), (2 : ℝ)), ((3 : ℝ), (4 : ℝ))],
    shader_trail_roundtrip.2 [((1 : ℝ), (2 : ℝ)), ((3 : ℝ), (4 : ℝ))] (by norm_num)⟩

/-- C6 (counterexample): after 65 insertions (one wraparound step) the shader
loop's visit sequence is *not* the live insertions in insertion order (it
starts with the newest point, which overwrote slot 0), nor the first 64
insertions: the claim's "in insertion order starting from index 0 regardless
of ring-buffer wraparound" fails at this input. -/
theorem shader_trail_roundtrip_cex :
    shaderVisit (insertSeq uvSeq65) ≠ uvSeq65.drop 1 ∧
    shaderVisit (insertSeq uvSeq65) ≠ uvSeq65.take 64 := by
  have hlen65 : uvSeq65.length = 65 := by simp [uvSeq65]
  have hsplit : uvSeq65 =
      ((List.range 64).map fun j : ℕ => ((j : ℝ), (0 : ℝ))) ++ [((64 : ℝ), (0 : ℝ))] := by
    unfold uvSeq65
    rw [List.range_succ, List.map_append]
    norm_num
  set l64 : List (ℝ × ℝ) := (List.range 64).map fun j : ℕ => ((j : ℝ), (0 : ℝ)) with hl64
  have hlen64 : l64.length = 64 := by simp [hl64]
  obtain ⟨hc, hx, _⟩ := insertSeq_spec l64 (le_of_eq hlen64)
  have hidx : (insertSeq l64).trailIndex = ⟨0, by norm_num⟩ := by
    apply Fin.ext
    rw [hx, hlen64]
  have hs65 : insertSeq uvSeq65 = insertTrail (insertSeq l64) ((64 : ℝ), (0 : ℝ)) 0 0 0 := by
    rw [hsplit, insertSeq_concat]
  have hcount65 : (insertSeq uvSeq65).trailCount = 64 := by
    rw [insertSeq_count, hlen65]
    omega
  have hslot0 : (insertSeq uvSeq65).trailData ⟨0, by norm_num⟩ = ⟨64, 0, 0, 1.0⟩ := by
    have hdata65 : (insertSeq uvSeq65).trailData =
        Function.update (insertSeq l64).trailData (insertSeq l64).trailIndex
          ⟨64, 0, 0, 1.0⟩ := by
      rw [hs65]
      rfl
    rw [hdata65, hidx, Function.update_same]
  have hhead : (shaderVisit (insertSeq uvSeq65))[0]? = some ((64 : ℝ), (0 : ℝ)) := by
    unfold shaderVisit
    rw [hcount65]
    rw [List.getElem?_take_of_lt (by norm_num)]
    rw [List.getElem?_eq_getElem (by simp)]
    rw [List.getElem_ofFn]
    show some ((((insertSeq uvSeq65).trailData ⟨0, by norm_num⟩).u,
      (((insertSeq uvSeq65).trailData ⟨0, by norm_num⟩)).v)) = _
    rw [hslot0]
  have hdrop : (uvSeq65.drop 1)[0]? = some ((1 : ℝ), (0 : ℝ)) := by
    have h1 : (1 : ℕ) < uvSeq65.length := by rw [hlen65]; norm_num
    rw [List.drop_eq_getElem_cons h1]
    have : uvSeq65[1] = ((1 : ℝ), (0 : ℝ)) := by
      unfold uvSeq65
      rw [List.getElem_map]
      norm_num
    simp [this]
  have htake : (uvSeq65.take 64)[0]? = some ((0 : ℝ), (0 : ℝ)) := by
    rw [List.getElem?_take_of_lt (by norm_num)]
    rw [List.getElem?_eq_getElem (by rw [hlen65]; norm_num)]
    have : uvSeq65[0] = ((0 : ℝ), (0 : ℝ)) := by
      unfold uvSeq65
      rw [List.getElem_map]
      norm_num
    rw [this]
  constructor
  · intro heq
    rw [heq, hdrop] at hhead
    have : (64 : ℝ) = 1 := by
      simpa using congrArg (fun o => (o.getD (0, 0)).1) hhead
    norm_num at this
  · intro heq
    rw [heq, htake] at hhead
    have : (64 : ℝ) = 0 := by
      simpa using congrArg (fun o => (o.getD (1, 1)).1) hhead
    norm_num at this

/-! ## Decay-curve lemmas (C1, C5) -/

/-- The perturbed decay exponent `1.5 + sin(3·age)·0.3` stays in `[1.2, 1.8]`. -/
lemma fade_exponent_bounds (a : ℝ) :
    1.2 ≤ 1.5 + Real.sin (a * 3.0) * 0.3 ∧ 1.5 + Real.sin (a * 3.0) * 0.3 ≤ 1.8 := by
  have h1 := Real.neg_one_le_sin (a * 3.0)
  have h2 := Real.sin_le_one (a * 3.0)
  constructor <;> nlinarith

/-! ## C5: intensity hits 0 once age reaches maxAge -/

/-- C5: at any update call where a live point's (incremented) age is at least
its per-point `maxAge`, the computed intensity `1 − (age/maxAge)^k` is ≤ 0,
and the stored, clamped intensity is exactly 0 (with or without melt). -/
theorem trail_point_dead_at_maxAge (p : TrailPoint) (m : TrailMeta) (dt : ℝ)
    (melt : Bool) (hlive : 0 < p.intensity) (hM : 0 < m.maxAge)
    (hage : m.maxAge ≤ p.age + dt) :
    1 - fadeCurve (p.age + dt) m.maxAge ≤ 0 ∧
    (agePoint p m dt melt).intensity = 0 := by
  have hx : (1 : ℝ) ≤ (p.age + dt) / m.maxAge := (one_le_div hM).2 hage
  have hk := (fade_exponent_bounds (p.age + dt)).1
  have h1 : (1 : ℝ) ≤ fadeCurve (p.age + dt) m.maxAge := by
    unfold fadeCurve
    exact Real.one_le_rpow hx (by linarith)
  refine ⟨by linarith, ?_⟩
  have hred : (agePoint p m dt melt).intensity =
      if melt then max 0 (1.0 - fadeCurve (p.age + dt) m.maxAge) * 0.7
      else max 0 (1.0 - fadeCurve (p.age + dt) m.maxAge) := by
    unfold agePoint
    rw [if_pos hlive]
  rw [hred]
  have hmax : max (0 : ℝ) (1.0 - fadeCurve (p.age + dt) m.maxAge) = 0 :=
    max_eq_left (by linarith)
  cases melt <;> simp [hmax]

/-- Witness for C5: a fresh point aged 3 seconds past a 2-second `maxAge`. -/
theorem trail_point_dead_at_maxAge_witness :
    (0 : ℝ) < 1 ∧ (0 : ℝ) < 2 ∧ (2 : ℝ) ≤ 0 + 3 ∧
    (1 - fadeCurve ((0 : ℝ) + 3) 2 ≤ 0 ∧
      (agePoint ⟨0, 0, 0, 1⟩ ⟨0.15, 2⟩ 3 false).intensity = 0) :=
  ⟨by norm_num, by norm_num, by norm_num,
    trail_point_dead_at_maxAge ⟨0, 0, 0, 1⟩ ⟨0.15, 2⟩ 3 false
      (by norm_num) (by norm_num) (by norm_num)⟩

/-! ## Numeric bounds for the C1 counterexample

The decay curve `1 − (age/maxAge)^(1.5 + 0.3·sin(3·age))` is *not* monotone:
around `3·age ≈ 2π` the exponent rises fast enough to outweigh the growth of
`age/maxAge`.  The concrete instance uses `maxAge = 5` and consecutive ages
`1.95` and `2.18`. -/

/-- `6.283184 < 2π < 6.283186`. -/
lemma two_pi_bounds : (6.283184 : ℝ) < 2 * Real.pi ∧ 2 * Real.pi < 6.283186 := by
  have h1 := Real.pi_gt_d6
  have h2 := Real.pi_lt_d6
  norm_num at h1 h2
  constructor <;> nlinarith

/-- Cubic Taylor lower bound for `sin` on `(0, 1]`. -/
lemma sin_taylor_lb (y : ℝ) (h0 : 0 < y) (h1 : y ≤ 1) :
    y - y ^ 3 / 6 - y ^ 4 * (5 / 96) ≤ Real.sin y := by
  have hs := Real.sin_bound (by rw [abs_of_pos h0]; exact h1)
  rw [abs_of_pos h0] at hs
  linarith [(abs_le.1 hs).1]

/-- Taylor-with-interval bound: if `y ∈ (lo, hi] ⊆ (0, 1]` then
`lo − hi³/6 − hi⁴·5/96 ≤ sin y`. -/
lemma sin_lb_on_interval (y lo hi : ℝ) (hlo : 0 < lo) (hy1 : lo < y)
    (hy2 : y ≤ hi) (hhi : hi ≤ 1) :
    lo - hi ^ 3 / 6 - hi ^ 4 * (5 / 96) ≤ Real.sin y := by
  have h0 : (0 : ℝ) < y := lt_trans hlo hy1
  have htay := sin_taylor_lb y h0 (le_trans hy2 hhi)
  have h3 : y ^ 3 ≤ hi ^ 3 := pow_le_pow_left h0.le hy2 3
  have h4 : y ^ 4 ≤ hi ^ 4 := pow_le_pow_left h0.le hy2 4
  nlinarith

/-- `sin 5.85 ≤ −0.4177` (since `5.85 = 2π − y` with `y ≈ 0.43318`). -/
lemma sin_585_ub : Real.sin 5.85 ≤ -0.4177 := by
  obtain ⟨hp1, hp2⟩ := two_pi_bounds
  have hsin_y : (0.4177 : ℝ) ≤ Real.sin (2 * Real.pi - 5.85) := by
    have h := sin_lb_on_interval (2 * Real.pi - 5.85) 0.433184 0.433186
      (by norm_num) (by linarith) (by linarith) (by norm_num)
    nlinarith
  have h585 : Real.sin 5.85 = -Real.sin (2 * Real.pi - 5.85) := by
    conv_lhs => rw [show (5.85 : ℝ) = -(2 * Real.pi - 5.85) + 2 * Real.pi by ring]
    rw [Real.sin_add_two_pi, Real.sin_neg]
  rw [h585]
  linarith

/-- `0.2537 ≤ sin 6.54` (since `6.54 = 2π + y` with `y ≈ 0.25682`). -/
lemma sin_654_lb : (0.2537 : ℝ) ≤ Real.sin 6.54 := by
  obtain ⟨hp1, hp2⟩ := two_pi_bounds
  have hsin_y : (0.2537 : ℝ) ≤ Real.sin (6.54 - 2 * Real.pi) := by
    have h := sin_lb_on_interval (6.54 - 2 * Real.pi) 0.256814 0.256816
      (by norm_num) (by linarith) (by linarith) (by norm_num)
    nlinarith
  have h654 : Real.sin 6.54 = Real.sin (6.54 - 2 * Real.pi) := by
    conv_lhs => rw [show (6.54 : ℝ) = (6.54 - 2 * Real.pi) + 2 * Real.pi by ring]
    rw [Real.sin_add_two_pi]
  rw [h654]
  exact hsin_y

/-- `100/39 ≤ e^0.944` by a six-term Taylor partial sum. -/
lemma exp_0944_lb : (100 : ℝ) / 39 ≤ Real.exp 0.944 := by
  have habs : |(0.944 : ℝ)| ≤ 1 := by rw [abs_of_pos (by norm_num)]; norm_num
  have h := Real.exp_bound habs (n := 6) (by norm_num)
  rw [abs_of_pos (by norm_num : (0 : ℝ) < 0.944)] at h
  have hlow := (abs_le.1 h).1
  simp only [Finset.sum_range_succ, Finset.sum_range_zero] at hlow
  norm_num [Nat.factorial] at hlow ⊢
  linarith

/-- `e^0.828 ≤ 250/109` by a six-term Taylor partial sum. -/
lemma exp_0828_ub : Real.exp 0.828 ≤ (250 : ℝ) / 109 := by
  have h := Real.exp_bound' (x := 0.828) (by norm_num) (by norm_num) (n := 6) (by norm_num)
  simp only [Finset.sum_range_succ, Finset.sum_range_zero] at h
  norm_num [Nat.factorial] at h ⊢
  linarith

/-- `−0.944 ≤ log 0.39`. -/
lemma log_039_lb : -(0.944 : ℝ) ≤ Real.log 0.39 := by
  have h39 : (0.39 : ℝ) = ((100 : ℝ) / 39)⁻¹ := by norm_num
  rw [h39, Real.log_inv]
  have h : Real.log ((100 : ℝ) / 39) ≤ 0.944 := by
    rw [Real.log_le_iff_le_exp (by norm_num)]
    exact exp_0944_lb
  linarith

/-- `log 0.436 ≤ −0.828`. -/
lemma log_0436_ub : Real.log 0.436 ≤ -(0.828 : ℝ) := by
  have h436 : (0.436 : ℝ) = ((250 : ℝ) / 109)⁻¹ := by norm_num
  rw [h436, Real.log_inv]
  have h : (0.828 : ℝ) ≤ Real.log ((250 : ℝ) / 109) := by
    rw [Real.le_log_iff_exp_le (by norm_num)]
    exact exp_0828_ub
  linarith

/-- The decay curve is larger at age 1.95 than at age 2.18 (`maxAge = 5`):
the sinusoidal exponent perturbation beats the base growth. -/
lemma fadeCurve_nonmono : fadeCurve 2.18 5 < fadeCurve 1.95 5 := by
  have hs1 : Real.sin ((1.95 : ℝ) * 3.0) ≤ -0.4177 := by
    rw [show (1.95 : ℝ) * 3.0 = 5.85 by norm_num]
    exact sin_585_ub
  have hs2 : (0.2537 : ℝ) ≤ Real.sin ((2.18 : ℝ) * 3.0) := by
    rw [show (2.18 : ℝ) * 3.0 = 6.54 by norm_num]
    exact sin_654_lb
  have hs1l := Real.neg_one_le_sin ((1.95 : ℝ) * 3.0)
  have hs2u := Real.sin_le_one ((2.18 : ℝ) * 3.0)
  unfold fadeCurve
  rw [show (1.95 : ℝ) / 5 = 0.39 by norm_num, show (2.18 : ℝ) / 5 = 0.436 by norm_num]
  rw [Real.rpow_def_of_pos (by norm_num : (0 : ℝ) < 0.436)]
  rw [Real.rpow_def_of_pos (by norm_num : (0 : ℝ) < 0.39)]
  apply Real.exp_lt_exp.2
  have hL1 := log_039_lb
  have hL2 := log_0436_ub
  set s1 := Real.sin ((1.95 : ℝ) * 3.0)
  set s2 := Real.sin ((2.18 : ℝ) * 3.0)
  set L1 := Real.log 0.39
  set L2 := Real.log 0.436
  have hk1pos : (0 : ℝ) < 1.5 + s1 * 0.3 := by nlinarith
  have hk2lb : (1.57611 : ℝ) ≤ 1.5 + s2 * 0.3 := by nlinarith
  have hA : L2 * (1.5 + s2 * 0.3) ≤ -0.828 * (1.5 + s2 * 0.3) :=
    mul_le_mul_of_nonneg_right hL2 (by linarith)
  have hB : -0.828 * (1.5 + s2 * 0.3) ≤ -0.828 * 1.57611 := by nlinarith
  have hC : -0.944 * (1.5 + s1 * 0.3) ≤ L1 * (1.5 + s1 * 0.3) :=
    mul_le_mul_of_nonneg_right hL1 hk1pos.le
  have hD : -0.944 * 1.37469 ≤ -0.944 * (1.5 + s1 * 0.3) := by nlinarith
  calc L2 * (1.5 + s2 * 0.3) ≤ -0.828 * 1.57611 := le_trans hA hB
    _ < -0.944 * 1.37469 := by norm_num
    _ ≤ L1 * (1.5 + s1 * 0.3) := le_trans hD hC

/-- The decay curve at age 1.95, `maxAge = 5`, is still below 1 (live point). -/
lemma fadeCurve_195_lt_one : fadeCurve 1.95 5 < 1 := by
  unfold fadeCurve
  rw [show (1.95 : ℝ) / 5 = 0.39 by norm_num]
  refine Real.rpow_lt_one (by norm_num) (by norm_num) ?_
  nlinarith [Real.neg_one_le_sin ((1.95 : ℝ) * 3.0)]

/-! ## C1: trail intensity is NOT non-increasing without melt (corrected) -/

/-- C1 (counterexample): a live point of age 1.72 with `maxAge = 5`
(`fadeSpeed`/`maxAge` inside the random creation ranges), put through two
consecutive `update` calls with `deltaTime = 0.23`, no melt, not scrolling:
its stored intensity (slot 0) *increases* from the first call to the second,
refuting "intensity is non-increasing whenever the melt branch does not
fire". -/
theorem trail_intensity_not_monotone :
    0 < ((updateTrail cexState quietInput).trailData ⟨0, by norm_num⟩).intensity ∧
    ((updateTrail cexState quietInput).trailData ⟨0, by norm_num⟩).intensity <
      ((updateTrail (updateTrail cexState quietInput) quietInput).trailData
        ⟨0, by norm_num⟩).intensity := by
  have hstep1 : (updateTrail cexState quietInput).trailData ⟨0, by norm_num⟩ =
      agePoint cexPoint cexMeta 0.23 false := rfl
  have hstep2 : (updateTrail (updateTrail cexState quietInput) quietInput).trailData
      ⟨0, by norm_num⟩ =
      agePoint (agePoint cexPoint cexMeta 0.23 false) cexMeta 0.23 false := rfl
  have hp1 : agePoint cexPoint cexMeta 0.23 false =
      ⟨0.5, 0.5, 1.95, max 0 (1.0 - fadeCurve 1.95 5)⟩ := by
    unfold agePoint
    rw [if_pos (show (0 : ℝ) < cexPoint.intensity by norm_num [cexPoint])]
    show (⟨cexPoint.u, cexPoint.v, cexPoint.age + 0.23,
      max 0 (1.0 - fadeCurve (cexPoint.age + 0.23) cexMeta.maxAge)⟩ : TrailPoint) = _
    norm_num [cexPoint, cexMeta]
  have hmax1 : max (0 : ℝ) (1.0 - fadeCurve 1.95 5) = 1.0 - fadeCurve 1.95 5 :=
    max_eq_right (by linarith [fadeCurve_195_lt_one])
  have hp2 : agePoint (⟨0.5, 0.5, 1.95, max 0 (1.0 - fadeCurve 1.95 5)⟩ : TrailPoint)
      cexMeta 0.23 false = ⟨0.5, 0.5, 2.18, max 0 (1.0 - fadeCurve 2.18 5)⟩ := by
    unfold agePoint
    rw [if_pos (show (0 : ℝ) <
      (⟨0.5, 0.5, 1.95, max 0 (1.0 - fadeCurve 1.95 5)⟩ : TrailPoint).intensity by
        show (0 : ℝ) < max 0 (1.0 - fadeCurve 1.95 5)
        rw [hmax1]
        linarith [fadeCurve_195_lt_one])]
    show (⟨0.5, 0.5, (1.95 : ℝ) + 0.23,
      max 0 (1.0 - fadeCurve ((1.95 : ℝ) + 0.23) cexMeta.maxAge)⟩ : TrailPoint) = _
    norm_num [cexMeta]
  have hmax2 : max (0 : ℝ) (1.0 - fadeCurve 2.18 5) = 1.0 - fadeCurve 2.18 5 :=
    max_eq_right (by linarith [fadeCurve_nonmono, fadeCurve_195_lt_one])
  rw [hstep1, hstep2, hp1, hp2]
  show (0 : ℝ) < max 0 (1.0 - fadeCurve 1.95 5) ∧
    max (0 : ℝ) (1.0 - fadeCurve 1.95 5) < max 0 (1.0 - fadeCurve 2.18 5)
  rw [hmax1, hmax2]
  constructor
  · linarith [fadeCurve_195_lt_one]
  · linarith [fadeCurve_nonmono]

/-- C1 (amended): without melt, a live point's stored intensity equals
`max 0 (1 − (age/maxAge)^(1.5+0.3·sin(3·age)))`, which is squeezed between
the two *monotone non-increasing* envelopes `1 − (age/maxAge)^1.2` and
`1 − (age/maxAge)^1.8` while `age ≤ maxAge`; the intensity itself is not
pointwise non-increasing (the sinusoidal exponent perturbation can raise it
between consecutive updates even without melt — see the counterexample). -/
theorem trail_intensity_envelope (p : TrailPoint) (m : TrailMeta) (dt : ℝ)
    (hlive : 0 < p.intensity) (hage0 : 0 ≤ p.age) (hdt : 0 < dt)
    (hM : p.age + dt ≤ m.maxAge) :
    1 - ((p.age + dt) / m.maxAge) ^ (1.2 : ℝ) ≤ (agePoint p m dt false).intensity ∧
    (agePoint p m dt false).intensity ≤ 1 - ((p.age + dt) / m.maxAge) ^ (1.8 : ℝ) ∧
    (∀ a b : ℝ, 0 ≤ a → a ≤ b →
      1 - (b / m.maxAge) ^ (1.8 : ℝ) ≤ 1 - (a / m.maxAge) ^ (1.8 : ℝ)) ∧
    (∀ a b : ℝ, 0 ≤ a → a ≤ b →
      1 - (b / m.maxAge) ^ (1.2 : ℝ) ≤ 1 - (a / m.maxAge) ^ (1.2 : ℝ)) := by
  have hM0 : (0 : ℝ) < m.maxAge := by linarith
  have hx0 : (0 : ℝ) < (p.age + dt) / m.maxAge := div_pos (by linarith) hM0
  have hx1 : (p.age + dt) / m.maxAge ≤ 1 := (div_le_one hM0).2 hM
  obtain ⟨hkl, hku⟩ := fade_exponent_bounds (p.age + dt)
  have hred : (agePoint p m dt false).intensity =
      max 0 (1.0 - fadeCurve (p.age + dt) m.maxAge) := by
    unfold agePoint
    rw [if_pos hlive]
    rfl
  have hfc : fadeCurve (p.age + dt) m.maxAge =
      ((p.age + dt) / m.maxAge) ^ (1.5 + Real.sin ((p.age + dt) * 3.0) * 0.3) := rfl
  have h18 : ((p.age + dt) / m.maxAge) ^ (1.8 : ℝ) ≤ fadeCurve (p.age + dt) m.maxAge := by
    rw [hfc]
    exact Real.rpow_le_rpow_of_exponent_ge hx0 hx1 hku
  have h12 : fadeCurve (p.age + dt) m.maxAge ≤ ((p.age + dt) / m.maxAge) ^ (1.2 : ℝ) := by
    rw [hfc]
    exact Real.rpow_le_rpow_of_exponent_ge hx0 hx1 hkl
  refine ⟨?_, ?_, ?_, ?_⟩
  · rw [hred]
    calc 1 - ((p.age + dt) / m.maxAge) ^ (1.2 : ℝ)
        ≤ 1.0 - fadeCurve (p.age + dt) m.maxAge := by linarith
      _ ≤ max 0 (1.0 - fadeCurve (p.age + dt) m.maxAge) := le_max_right _ _
  · rw [hred]
    have h0 : ((p.age + dt) / m.maxAge) ^ (1.8 : ℝ) ≤ 1 :=
      Real.rpow_le_one hx0.le hx1 (by norm_num)
    exact max_le (by linarith) (by linarith)
  · intro a b ha hab
    have h := Real.rpow_le_rpow (div_nonneg ha hM0.le)
      ((div_le_div_right hM0).2 hab) (by norm_num : (0 : ℝ) ≤ 1.8)
    linarith
  · intro a b ha hab
    have h := Real.rpow_le_rpow (div_nonneg ha hM0.le)
      ((div_le_div_right hM0).2 hab) (by norm_num : (0 : ℝ) ≤ 1.2)
    linarith

/-- Witness for the C1 envelope bounds: a fresh point aged one second with a
two-second `maxAge`. -/
theorem trail_intensity_envelope_witness :
    (0 : ℝ) < 1 ∧ (0 : ℝ) ≤ 0 ∧ (0 : ℝ) < 1 ∧ (0 : ℝ) + 1 ≤ 2 ∧
    (1 - (((0 : ℝ) + 1) / 2) ^ (1.2 : ℝ) ≤
      (agePoint ⟨0, 0, 0, 1⟩ ⟨0.15, 2⟩ 1 false).intensity ∧
    (agePoint ⟨0, 0, 0, 1⟩ ⟨0.15, 2⟩ 1 false).intensity ≤
      1 - (((0 : ℝ) + 1) / 2) ^ (1.8 : ℝ) ∧
    (∀ a b : ℝ, 0 ≤ a → a ≤ b →
      1 - (b / 2) ^ (1.8 : ℝ) ≤ 1 - (a / 2) ^ (1.8 : ℝ)) ∧
    (∀ a b : ℝ, 0 ≤ a → a ≤ b →
      1 - (b / 2) ^ (1.2 : ℝ) ≤ 1 - (a / 2) ^ (1.2 : ℝ))) :=
  ⟨by norm_num, by norm_num, by norm_num, by norm_num,
    trail_intensity_envelope ⟨0, 0, 0, 1⟩ ⟨0.15, 2⟩ 1
      (by norm_num) (by norm_num) (by norm_num) (by norm_num)⟩

/-- Witness for C2's overwrite clause at the concrete full state. -/
theorem trail_ring_buffer_capacity_witness :
    fullState.trailCount = 64 ∧ hitInput.hitUv = some (0.5, 0.5) ∧
    hitInput.isScrolling = false ∧
    trailInterval < hitInput.elapsedTime - fullState.lastTrailTime ∧
    (((updateTrail fullState hitInput).trailData fullState.trailIndex).u = 0.5 ∧
      ((updateTrail fullState hitInput).trailData fullState.trailIndex).v = 0.5 ∧
      ((updateTrail fullState hitInput).trailData fullState.trailIndex).intensity = 1 ∧
      ((updateTrail fullState hitInput).trailIndex : ℕ) =
        ((fullState.trailIndex : ℕ) + 1) % 64 ∧
      (updateTrail fullState hitInput).trailCount = 64) :=
  ⟨rfl, rfl, rfl, by unfold trailInterval fullState hitInput; norm_num,
    trail_ring_buffer_capacity.2.1 fullState hitInput (0.5, 0.5) rfl rfl rfl
      (by unfold trailInterval fullState hitInput; norm_num)⟩

end DTD
